import Mathlib

/-!
Verification of the matching, quality-gating and throttling core of a
face-recognition attendance program (single source file `main.py`).

The embedding models:
* embeddings and similarity scores as real vectors / reals,
* timestamps, detection scores and blur variances as rationals,
* the two cooldown dictionaries as functions `key → Option ℚ`,
* images (crops) as `Option ImgData` carrying the two observable
  quantities the code reads from a crop: its pixel count (`size`) and the
  variance of its Laplacian (`lapVar`),
* the Supabase client as an optional store oracle returning `Except`.
-/

namespace FaceRec

/-- Configuration constant `SIM_THRESHOLD = 0.45` from `main.py`. -/
noncomputable def SIM_THRESHOLD : ℝ := 0.45

/-- Configuration constant `UNKNOWN_SAVE_COOLDOWN = 10` (seconds). -/
def UNKNOWN_SAVE_COOLDOWN : ℚ := 10

/-- Configuration constant `KNOWN_LOG_COOLDOWN = 10` (seconds). -/
def KNOWN_LOG_COOLDOWN : ℚ := 10

/-- Configuration constant `MIN_DETECTION_SCORE = 0.5`. -/
def MIN_DETECTION_SCORE : ℚ := 0.5

/-- Configuration constant `BLUR_THRESHOLD = 180`. -/
def BLUR_THRESHOLD : ℚ := 180

/-- Configuration constant `MIN_FRAME_EDGE_DISTANCE = 30` (pixels). -/
def MIN_FRAME_EDGE_DISTANCE : ℤ := 30

/-- Observable content of a non-`None` image crop: `size` is the pixel
count (`img.size` in numpy), `lapVar` the variance of the Laplacian that
`cv2.Laplacian(...).var()` returns for the grayscale crop. -/
structure ImgData where
  size : ℕ
  lapVar : ℚ
deriving DecidableEq

/-- Model of `is_face_clear(img, thresh)`: `False` for a `None` or empty
image, otherwise the Laplacian variance must strictly exceed the
threshold. -/
def is_face_clear (img : Option ImgData) (thresh : ℚ) : Bool :=
  match img with
  | none => false
  | some d => if d.size = 0 then false else decide (thresh < d.lapVar)

/-- Model of the final guard in `save_unknown`:
`face_crop is not None and face_crop.size > 0`. -/
def crop_nonempty (img : Option ImgData) : Bool :=
  match img with
  | none => false
  | some d => decide (0 < d.size)

/-- A cooldown dictionary: partial map from keys to last-action
timestamps, as in `unknown_cooldowns` / `known_cooldowns`. -/
def CDMap (κ : Type) : Type := κ → Option ℚ

/-- Dictionary update `m[k] = t`. -/
def updateCD {κ : Type} [DecidableEq κ] (m : CDMap κ) (k : κ) (t : ℚ) : CDMap κ :=
  fun k' => if k' = k then some t else m k'

/-- The empty cooldown dictionary. -/
def emptyCD {κ : Type} : CDMap κ := fun _ => none

/-- The cooldown test `emb_key in dict and now - dict[emb_key] < window`. -/
def cooldown_suppressed {κ : Type} (m : CDMap κ) (k : κ) (now window : ℚ) : Bool :=
  match m k with
  | some t => decide (now - t < window)
  | none => false

/-- Model of `save_unknown(face_crop, embedding, det_score)` from
`main.py`, with the mutable dictionary and `time.time()` made explicit.
The embedding's byte fingerprint `embedding.tobytes()` is abstracted to a
key `emb_key` with decidable equality.  Returns the new dictionary and
whether an image was written (the function's return value). -/
def save_unknown {κ : Type} [DecidableEq κ] (unknown_cooldowns : CDMap κ) (now : ℚ)
    (face_crop : Option ImgData) (emb_key : κ) (det_score : ℚ) : CDMap κ × Bool :=
  if det_score < MIN_DETECTION_SCORE then (unknown_cooldowns, false)
  else if cooldown_suppressed unknown_cooldowns emb_key now UNKNOWN_SAVE_COOLDOWN then
    (unknown_cooldowns, false)
  else if is_face_clear face_crop BLUR_THRESHOLD = false then (unknown_cooldowns, false)
  else
    let cooldowns' := updateCD unknown_cooldowns emb_key now
    if crop_nonempty face_crop then (cooldowns', true) else (cooldowns', false)

/-- Outcome of one event dispatch: how many insert attempts were made,
whether delivery succeeded, and the diagnostic (error code) printed on
failure. -/
structure SendOutcome where
  attempts : ℕ
  delivered : Bool
  diag : Option ℕ
deriving DecidableEq

/-- An external-store oracle: one call is one insert attempt on the
`detections` table, which either succeeds or raises an error. -/
def Store (ν : Type) : Type := (ν × ℝ × Bool) → Except ℕ Unit

/-- Model of the body `_send` of `log_to_supabase_async`: if no client is
configured, return with no attempt; otherwise make exactly one insert
attempt and catch any error, turning it into a diagnostic.  The thread
spawn makes the outcome invisible to the caller; it is returned here only
so theorems can speak about it. -/
def sendEvent {ν : Type} (client : Option (Store ν)) (payload : ν × ℝ × Bool) : SendOutcome :=
  match client with
  | none => ⟨0, false, none⟩
  | some store =>
    match store payload with
    | Except.ok _ => ⟨1, true, none⟩
    | Except.error e => ⟨1, false, some e⟩

/-- Model of the known-identity branch of the main loop (lines 192–197):
read the last logged time with default `0`, and when the elapsed time
strictly exceeds `KNOWN_LOG_COOLDOWN`, dispatch asynchronously and
refresh the timestamp.  Returns the new dictionary and whether a dispatch
was made.  The dispatch outcome is discarded (fire-and-forget). -/
def known_branch_step {ν : Type} [DecidableEq ν] (client : Option (Store ν))
    (known_cooldowns : CDMap ν) (now : ℚ) (name : ν) (confidence : ℝ) :
    CDMap ν × Bool :=
  let last_log := (known_cooldowns name).getD 0
  if KNOWN_LOG_COOLDOWN < now - last_log then
    let _bg := sendEvent client (name, confidence, true)
    (updateCD known_cooldowns name now, true)
  else (known_cooldowns, false)

/-- Model of the unknown branch of the main loop (lines 206–221): reject
a bounding box too close to a frame edge (`continue`), otherwise run
`save_unknown`, and dispatch an event exactly when it returns `True`.
`unknown_label` stands for the literal string `"Unknown"` of the source.
Returns (new dictionary, image saved?, event dispatched?). -/
def unknown_branch_step {ν κ : Type} [DecidableEq κ] (client : Option (Store ν))
    (unknown_label : ν) (w h x1 y1 x2 y2 : ℤ) (crop : Option ImgData) (emb_key : κ)
    (det_score : ℚ) (unknown_cooldowns : CDMap κ) (now : ℚ) :
    CDMap κ × Bool × Bool :=
  if x1 < MIN_FRAME_EDGE_DISTANCE ∨ y1 < MIN_FRAME_EDGE_DISTANCE ∨
      w - MIN_FRAME_EDGE_DISTANCE < x2 ∨ h - MIN_FRAME_EDGE_DISTANCE < y2 then
    (unknown_cooldowns, false, false)
  else
    let r := save_unknown unknown_cooldowns now crop emb_key det_score
    if r.2 then
      let _bg := sendEvent client (unknown_label, (det_score : ℝ), false)
      (r.1, true, true)
    else (r.1, false, false)

/-- Pointwise sum of two embedding vectors (numpy array addition). -/
noncomputable def vecAdd (xs ys : List ℝ) : List ℝ := List.zipWith (fun a b => a + b) xs ys

/-- Model of `np.mean(embs, axis=0)` on a non-empty stack of equal-length
vectors: the pointwise sum of the rows divided by the row count. -/
noncomputable def meanVec (embs : List (List ℝ)) : List ℝ :=
  match embs with
  | [] => []
  | e :: es => (es.foldl vecAdd e).map (fun x => x / ((es.length : ℝ) + 1))

/-- The embeddings collected for one identity folder in
`load_known_embeddings`: each enrollment image is `none` when unreadable
(`cv2.imread` returned `None`), otherwise the list of detections
`app.get(img)` found.  An image with no detection is skipped; otherwise
only the first detection's embedding `res[0].embedding` is appended. -/
def collectEmbs (imgs : List (Option (List (List ℝ)))) : List (List ℝ) :=
  imgs.filterMap (fun r => r.bind List.head?)

/-- Model of `load_known_embeddings`: keep each identity iff at least one
embedding was usable, with the mean of its collected embeddings as the
reference vector.  The association list keeps the source's folder
iteration order. -/
noncomputable def load_known_embeddings {ν : Type}
    (src : List (ν × List (Option (List (List ℝ))))) : List (ν × List ℝ) :=
  src.filterMap (fun p =>
    if (collectEmbs p.2).isEmpty then none else some (p.1, meanVec (collectEmbs p.2)))

/-- Dot product of two float vectors (a row of `embs_array.dot(emb)`). -/
noncomputable def dotL : List ℝ → List ℝ → ℝ
  | x :: xs, y :: ys => x * y + dotL xs ys
  | _, _ => 0

/-- Sum of squares of the entries of a vector. -/
noncomputable def sumSq : List ℝ → ℝ
  | [] => 0
  | x :: xs => x ^ 2 + sumSq xs

/-- Euclidean norm `np.linalg.norm`. -/
noncomputable def normL (xs : List ℝ) : ℝ := Real.sqrt (sumSq xs)

/-- The constant `1e-8` added to the similarity denominator. -/
noncomputable def EPS : ℝ := 1e-8

/-- The batched similarity row
`embs_array.dot(emb) / (embs_norm * emb_norm + 1e-8)`: for each registry
row `r`, the value `dot(r, q) / (norm(r) * norm(q) + 1e-8)`. -/
noncomputable def simsL (embs : List (List ℝ)) (q : List ℝ) : List ℝ :=
  embs.map (fun r => dotL r q / (normL r * normL q + EPS))

/-- Index of the first occurrence of the maximum (`np.argmax`). -/
noncomputable def argmaxL : List ℝ → ℕ
  | [] => 0
  | [_] => 0
  | x :: y :: ys =>
    if x < (y :: ys).getD (argmaxL (y :: ys)) 0 then argmaxL (y :: ys) + 1 else 0

/-- Model of `cosine_sim_vectorized(emb)` with the registry matrix made
an explicit argument: `(None, 0.0)` for an empty registry or a zero-norm
query, otherwise the argmax index into the similarity row together with
the similarity value at that index. -/
noncomputable def cosine_sim_vectorized (embs : List (List ℝ)) (q : List ℝ) :
    Option ℕ × ℝ :=
  if embs.isEmpty then (none, 0)
  else if normL q = 0 then (none, 0)
  else (some (argmaxL (simsL embs q)), (simsL embs q).getD (argmaxL (simsL embs q)) 0)

/-! Helper lemmas about the throttles and the quality gate. -/

theorem clear_imp_nonempty (img : Option ImgData) (th : ℚ) :
    is_face_clear img th = true → crop_nonempty img = true := by
  cases img with
  | none => simp [is_face_clear]
  | some d =>
    simp only [is_face_clear, crop_nonempty]
    by_cases h : d.size = 0
    · simp [h]
    · simp [h, Nat.pos_of_ne_zero h]

theorem cooldown_suppressed_some {κ : Type} (m : CDMap κ) (k : κ) (now window t : ℚ)
    (h : m k = some t) : cooldown_suppressed m k now window = decide (now - t < window) := by
  simp [cooldown_suppressed, h]

theorem cooldown_suppressed_none {κ : Type} (m : CDMap κ) (k : κ) (now window : ℚ)
    (h : m k = none) : cooldown_suppressed m k now window = false := by
  simp [cooldown_suppressed, h]

theorem save_unknown_dichotomy {κ : Type} [DecidableEq κ] (m : CDMap κ) (now : ℚ)
    (crop : Option ImgData) (k : κ) (score : ℚ) :
    save_unknown m now crop k score = (updateCD m k now, true) ∨
      save_unknown m now crop k score = (m, false) := by
  unfold save_unknown
  split_ifs with h1 h2 h3 h4
  · exact Or.inr rfl
  · exact Or.inr rfl
  · exact Or.inr rfl
  · exact Or.inl rfl
  · exfalso
    rw [Bool.not_eq_false] at h3
    rw [Bool.not_eq_true] at h4
    rw [clear_imp_nonempty crop BLUR_THRESHOLD h3] at h4
    exact Bool.noConfusion h4

theorem save_unknown_snd_true_iff {κ : Type} [DecidableEq κ] (m : CDMap κ) (now : ℚ)
    (crop : Option ImgData) (k : κ) (score : ℚ) :
    (save_unknown m now crop k score).2 = true ↔
      (MIN_DETECTION_SCORE ≤ score ∧
        cooldown_suppressed m k now UNKNOWN_SAVE_COOLDOWN = false ∧
        is_face_clear crop BLUR_THRESHOLD = true) := by
  unfold save_unknown
  split_ifs with h1 h2 h3 h4
  · simp [not_le.mpr h1]
  · simp [h2]
  · simp [h3]
  · have h2' : cooldown_suppressed m k now UNKNOWN_SAVE_COOLDOWN = false := by simpa using h2
    have h3' : is_face_clear crop BLUR_THRESHOLD = true := by simpa using h3
    simp [le_of_not_lt h1, h2', h3']
  · exfalso
    rw [Bool.not_eq_false] at h3
    rw [Bool.not_eq_true] at h4
    rw [clear_imp_nonempty crop BLUR_THRESHOLD h3] at h4
    exact Bool.noConfusion h4

theorem save_unknown_snd_true_fst {κ : Type} [DecidableEq κ] (m : CDMap κ) (now : ℚ)
    (crop : Option ImgData) (k : κ) (score : ℚ)
    (h : (save_unknown m now crop k score).2 = true) :
    (save_unknown m now crop k score).1 = updateCD m k now := by
  rcases save_unknown_dichotomy m now crop k score with hd | hd
  · rw [hd]
  · rw [hd] at h ⊢
    exact absurd h (by simp)

theorem save_unknown_snd_false_fst {κ : Type} [DecidableEq κ] (m : CDMap κ) (now : ℚ)
    (crop : Option ImgData) (k : κ) (score : ℚ)
    (h : (save_unknown m now crop k score).2 = false) :
    (save_unknown m now crop k score).1 = m := by
  rcases save_unknown_dichotomy m now crop k score with hd | hd
  · rw [hd] at h ⊢
    exact absurd h (by simp)
  · rw [hd]

/-- C1 (amended): the known-identity throttle allows an action for a key
with stored timestamp `t` iff `now - t` strictly exceeds the window and
then refreshes the timestamp to `now`; the unknown-face throttle allows
an action for a stored key iff `now - t` is at least (≥) the window, and
then refreshes the timestamp.  With window = 10 s: an unknown-save for a
fresh key at t = 0 is allowed and stores 0, the same key at t = 5 is
suppressed, and at t = 11 it is allowed again and stores 11; a known key
last logged at 0 is suppressed at t = 5 and allowed at t = 11 with the
timestamp refreshed to 11. -/
theorem c1_throttle_window :
    (∀ (ν : Type) [DecidableEq ν] (client : Option (Store ν)) (cd : CDMap ν) (now : ℚ)
        (name : ν) (conf : ℝ) (t : ℚ), cd name = some t →
        (((known_branch_step client cd now name conf).2 = true) ↔
          KNOWN_LOG_COOLDOWN < now - t) ∧
        ((known_branch_step client cd now name conf).2 = true →
          (known_branch_step client cd now name conf).1 name = some now)) ∧
    (∀ (κ : Type) [DecidableEq κ] (cd : CDMap κ) (now : ℚ) (d : ImgData) (k : κ)
        (score t : ℚ), cd k = some t → MIN_DETECTION_SCORE ≤ score →
        BLUR_THRESHOLD < d.lapVar → 0 < d.size →
        (((save_unknown cd now (some d) k score).2 = true) ↔
          UNKNOWN_SAVE_COOLDOWN ≤ now - t) ∧
        ((save_unknown cd now (some d) k score).2 = true →
          (save_unknown cd now (some d) k score).1 k = some now)) ∧
    ((save_unknown (emptyCD : CDMap ℕ) 0 (some ⟨1, 200⟩) 0 1).2 = true ∧
      (save_unknown (emptyCD : CDMap ℕ) 0 (some ⟨1, 200⟩) 0 1).1 0 = some 0) ∧
    (save_unknown (updateCD (emptyCD : CDMap ℕ) 0 0) 5 (some ⟨1, 200⟩) 0 1).2 = false ∧
    ((save_unknown (updateCD (emptyCD : CDMap ℕ) 0 0) 11 (some ⟨1, 200⟩) 0 1).2 = true ∧
      (save_unknown (updateCD (emptyCD : CDMap ℕ) 0 0) 11 (some ⟨1, 200⟩) 0 1).1 0 = some 11) ∧
    (known_branch_step (none : Option (Store ℕ)) (updateCD emptyCD 0 0) 5 0 0).2 = false ∧
    (known_branch_step (none : Option (Store ℕ)) (updateCD emptyCD 0 0) 11 0 0).2 = true ∧
    (known_branch_step (none : Option (Store ℕ)) (updateCD emptyCD 0 0) 11 0 0).1 0 =
      some 11 := by
  refine ⟨?_, ?_, ?_, ?_, ?_, ?_, ?_, ?_⟩
  · intro ν _ client cd now name conf t h
    simp only [known_branch_step, h, Option.getD_some]
    split_ifs with hc
    · exact ⟨by simp [hc], fun _ => by simp [updateCD]⟩
    · exact ⟨by simp [hc], fun hh => by simp at hh⟩
  · intro κ _ cd now d k score t hk hs hb hsz
    have hclear : is_face_clear (some d) BLUR_THRESHOLD = true := by
      simp [is_face_clear, Nat.pos_iff_ne_zero.mp hsz, hb]
    have hsup := cooldown_suppressed_some cd k now UNKNOWN_SAVE_COOLDOWN t hk
    constructor
    · rw [save_unknown_snd_true_iff, hsup, hclear]
      simp [hs, decide_eq_false_iff_not, not_lt]
    · intro hh
      rw [save_unknown_snd_true_fst cd now (some d) k score hh]
      simp [updateCD]
  · constructor <;>
      norm_num [save_unknown, cooldown_suppressed, is_face_clear, crop_nonempty, updateCD,
        emptyCD, MIN_DETECTION_SCORE, BLUR_THRESHOLD, UNKNOWN_SAVE_COOLDOWN]
  · norm_num [save_unknown, cooldown_suppressed, is_face_clear, crop_nonempty, updateCD,
      emptyCD, MIN_DETECTION_SCORE, BLUR_THRESHOLD, UNKNOWN_SAVE_COOLDOWN]
  · constructor <;>
      norm_num [save_unknown, cooldown_suppressed, is_face_clear, crop_nonempty, updateCD,
        emptyCD, MIN_DETECTION_SCORE, BLUR_THRESHOLD, UNKNOWN_SAVE_COOLDOWN]
  · norm_num [known_branch_step, updateCD, emptyCD, KNOWN_LOG_COOLDOWN]
  · norm_num [known_branch_step, updateCD, emptyCD, KNOWN_LOG_COOLDOWN]
  · norm_num [known_branch_step, updateCD, emptyCD, KNOWN_LOG_COOLDOWN]

/-- C1 counterexample to the claim as stated: the unknown-face throttle
allows a save whose elapsed time exactly equals the 10 s window (10 does
not exceed 10), and the known-identity throttle suppresses an action for
a fresh key at clock t = 0 (the claim says an action at t = 0 is
allowed). -/
theorem c1_throttle_window_cex :
    (save_unknown (updateCD (emptyCD : CDMap ℕ) 0 0) 10 (some ⟨1, 200⟩) 0 1).2 = true ∧
    ¬((10 : ℚ) - 0 > 10) ∧
    (known_branch_step (none : Option (Store ℕ)) emptyCD 0 0 0).2 = false := by
  refine ⟨?_, by norm_num, ?_⟩
  · norm_num [save_unknown, cooldown_suppressed, is_face_clear, crop_nonempty, updateCD,
      emptyCD, MIN_DETECTION_SCORE, BLUR_THRESHOLD, UNKNOWN_SAVE_COOLDOWN]
  · norm_num [known_branch_step, emptyCD, KNOWN_LOG_COOLDOWN]

/-- C1 witness: the amended theorem applied to concrete inputs. -/
theorem c1_throttle_window_witness :
    (((known_branch_step (none : Option (Store ℕ)) (updateCD emptyCD 0 0) 11 0 0).2 = true) ↔
      KNOWN_LOG_COOLDOWN < (11 : ℚ) - 0) ∧
    (((save_unknown (updateCD (emptyCD : CDMap ℕ) 0 0) 11 (some ⟨1, 200⟩) 0 1).2 = true) ↔
      UNKNOWN_SAVE_COOLDOWN ≤ (11 : ℚ) - 0) :=
  ⟨(c1_throttle_window.1 ℕ none (updateCD emptyCD 0 0) 11 0 0 0
      (by simp [updateCD, emptyCD])).1,
    (c1_throttle_window.2.1 ℕ (updateCD emptyCD 0 0) 11 ⟨1, 200⟩ 0 1 0
      (by simp [updateCD, emptyCD]) (by norm_num [MIN_DETECTION_SCORE])
      (by norm_num [BLUR_THRESHOLD]) (by norm_num)).1⟩

/-- C8: `save_unknown` either returns `True` and refreshes the key's
cooldown timestamp, or returns `False` and leaves the table unchanged;
the final crop-validity branch that would update the table and return
`False` is unreachable because `is_face_clear` already returns `False`
for a `None` or empty crop. -/
theorem c8_refresh_iff_saved (κ : Type) [DecidableEq κ] (m : CDMap κ) (now : ℚ)
    (crop : Option ImgData) (k : κ) (score : ℚ) :
    (save_unknown m now crop k score = (updateCD m k now, true) ∨
      save_unknown m now crop k score = (m, false)) ∧
    (∀ th : ℚ, is_face_clear crop th = true → crop_nonempty crop = true) :=
  ⟨save_unknown_dichotomy m now crop k score, fun th => clear_imp_nonempty crop th⟩

/-- C8 witness: the theorem applied to a concrete sharp crop. -/
theorem c8_refresh_iff_saved_witness :
    crop_nonempty (some ⟨1, 200⟩) = true ∧
    (save_unknown (emptyCD : CDMap ℕ) 0 (some ⟨1, 200⟩) 0 1 = (updateCD emptyCD 0 0, true) ∨
      save_unknown (emptyCD : CDMap ℕ) 0 (some ⟨1, 200⟩) 0 1 = (emptyCD, false)) :=
  ⟨(c8_refresh_iff_saved ℕ emptyCD 0 (some ⟨1, 200⟩) 0 1).2 BLUR_THRESHOLD
      (by norm_num [is_face_clear, BLUR_THRESHOLD]),
    (c8_refresh_iff_saved ℕ emptyCD 0 (some ⟨1, 200⟩) 0 1).1⟩

/-- C10: a name absent from the known-identity cooldown table gets the
default last-logged timestamp 0, so the log action is allowed exactly
when the clock exceeds the window, and the first qualifying event for the
identity is dispatched (with the timestamp refreshed) for any clock value
greater than the window. -/
theorem c10_default_timestamp (ν : Type) [DecidableEq ν] (client : Option (Store ν))
    (cd : CDMap ν) (now : ℚ) (name : ν) (conf : ℝ) (h : cd name = none) :
    (((known_branch_step client cd now name conf).2 = true) ↔ KNOWN_LOG_COOLDOWN < now) ∧
    (KNOWN_LOG_COOLDOWN < now →
      known_branch_step client cd now name conf = (updateCD cd name now, true)) := by
  simp only [known_branch_step, h, Option.getD_none, sub_zero]
  split_ifs with hc
  · exact ⟨by simp [hc], fun _ => rfl⟩
  · exact ⟨by simp [hc], fun h' => absurd h' hc⟩

/-- C3: on the unknown branch, containment (box at least
`MIN_FRAME_EDGE_DISTANCE` from every frame edge), detection score at
least `MIN_DETECTION_SCORE`, and blur variance above `BLUR_THRESHOLD`
are each necessary for the unknown-save action; if any one fails, no
image is saved, no event is dispatched, and the cooldown table is
unchanged.  A box with `x1 = 5` and margin 30 on a 640-wide frame is
rejected regardless of sharpness; a fully-inside box whose crop has blur
variance below the threshold is rejected; a fully-inside box with blur
variance above the threshold, detection score above the minimum, a
non-empty crop and no pending cooldown is accepted and dispatched. -/
theorem c3_unknown_gate (ν κ : Type) [DecidableEq κ] :
    (∀ (client : Option (Store ν)) (lbl : ν) (w h x1 y1 x2 y2 : ℤ) (crop : Option ImgData)
        (k : κ) (score : ℚ) (cd : CDMap κ) (now : ℚ),
        (unknown_branch_step client lbl w h x1 y1 x2 y2 crop k score cd now).2.1 = true →
        (MIN_FRAME_EDGE_DISTANCE ≤ x1 ∧ MIN_FRAME_EDGE_DISTANCE ≤ y1 ∧
          x2 ≤ w - MIN_FRAME_EDGE_DISTANCE ∧ y2 ≤ h - MIN_FRAME_EDGE_DISTANCE) ∧
        MIN_DETECTION_SCORE ≤ score ∧ is_face_clear crop BLUR_THRESHOLD = true) ∧
    (∀ (client : Option (Store ν)) (lbl : ν) (w h x1 y1 x2 y2 : ℤ) (crop : Option ImgData)
        (k : κ) (score : ℚ) (cd : CDMap κ) (now : ℚ),
        (¬(MIN_FRAME_EDGE_DISTANCE ≤ x1 ∧ MIN_FRAME_EDGE_DISTANCE ≤ y1 ∧
            x2 ≤ w - MIN_FRAME_EDGE_DISTANCE ∧ y2 ≤ h - MIN_FRAME_EDGE_DISTANCE) ∨
          score < MIN_DETECTION_SCORE ∨ is_face_clear crop BLUR_THRESHOLD = false) →
        unknown_branch_step client lbl w h x1 y1 x2 y2 crop k score cd now =
          (cd, false, false)) ∧
    (∀ (client : Option (Store ν)) (lbl : ν) (h y1 x2 y2 : ℤ) (crop : Option ImgData)
        (k : κ) (score : ℚ) (cd : CDMap κ) (now : ℚ),
        unknown_branch_step client lbl 640 h 5 y1 x2 y2 crop k score cd now =
          (cd, false, false)) ∧
    (∀ (client : Option (Store ν)) (lbl : ν) (w h x1 y1 x2 y2 : ℤ) (d : ImgData)
        (k : κ) (score : ℚ) (cd : CDMap κ) (now : ℚ),
        MIN_FRAME_EDGE_DISTANCE ≤ x1 → MIN_FRAME_EDGE_DISTANCE ≤ y1 →
        x2 ≤ w - MIN_FRAME_EDGE_DISTANCE → y2 ≤ h - MIN_FRAME_EDGE_DISTANCE →
        d.lapVar < BLUR_THRESHOLD →
        unknown_branch_step client lbl w h x1 y1 x2 y2 (some d) k score cd now =
          (cd, false, false)) ∧
    (∀ (client : Option (Store ν)) (lbl : ν) (w h x1 y1 x2 y2 : ℤ) (d : ImgData)
        (k : κ) (score : ℚ) (cd : CDMap κ) (now : ℚ),
        MIN_FRAME_EDGE_DISTANCE ≤ x1 → MIN_FRAME_EDGE_DISTANCE ≤ y1 →
        x2 ≤ w - MIN_FRAME_EDGE_DISTANCE → y2 ≤ h - MIN_FRAME_EDGE_DISTANCE →
        MIN_DETECTION_SCORE ≤ score → BLUR_THRESHOLD < d.lapVar → 0 < d.size →
        cd k = none →
        unknown_branch_step client lbl w h x1 y1 x2 y2 (some d) k score cd now =
          (updateCD cd k now, true, true)) := by
  have part2 : ∀ (client : Option (Store ν)) (lbl : ν) (w h x1 y1 x2 y2 : ℤ)
      (crop : Option ImgData) (k : κ) (score : ℚ) (cd : CDMap κ) (now : ℚ),
      (¬(MIN_FRAME_EDGE_DISTANCE ≤ x1 ∧ MIN_FRAME_EDGE_DISTANCE ≤ y1 ∧
          x2 ≤ w - MIN_FRAME_EDGE_DISTANCE ∧ y2 ≤ h - MIN_FRAME_EDGE_DISTANCE) ∨
        score < MIN_DETECTION_SCORE ∨ is_face_clear crop BLUR_THRESHOLD = false) →
      unknown_branch_step client lbl w h x1 y1 x2 y2 crop k score cd now =
        (cd, false, false) := by
    intro client lbl w h x1 y1 x2 y2 crop k score cd now hfail
    simp only [unknown_branch_step]
    split_ifs with hcut hr
    · rfl
    · exfalso
      have hc := (save_unknown_snd_true_iff cd now crop k score).mp hr
      push_neg at hcut
      rcases hfail with hf | hf | hf
      · exact hf ⟨hcut.1, hcut.2.1, hcut.2.2.1, hcut.2.2.2⟩
      · exact absurd hc.1 (not_le.mpr hf)
      · rw [hc.2.2] at hf
        exact Bool.noConfusion hf
    · rw [save_unknown_snd_false_fst cd now crop k score (by simpa using hr)]
  refine ⟨?_, part2, ?_, ?_, ?_⟩
  · intro client lbl w h x1 y1 x2 y2 crop k score cd now hsave
    simp only [unknown_branch_step] at hsave
    split_ifs at hsave with hcut hr
    have hc := (save_unknown_snd_true_iff cd now crop k score).mp hr
    push_neg at hcut
    exact ⟨⟨hcut.1, hcut.2.1, hcut.2.2.1, hcut.2.2.2⟩, hc.1, hc.2.2⟩
  · intro client lbl h y1 x2 y2 crop k score cd now
    refine part2 client lbl 640 h 5 y1 x2 y2 crop k score cd now (Or.inl ?_)
    intro hcon
    have h5 := hcon.1
    norm_num [MIN_FRAME_EDGE_DISTANCE] at h5
  · intro client lbl w h x1 y1 x2 y2 d k score cd now hx1 hy1 hx2 hy2 hblur
    refine part2 client lbl w h x1 y1 x2 y2 (some d) k score cd now (Or.inr (Or.inr ?_))
    by_cases hs : d.size = 0
    · simp [is_face_clear, hs]
    · simp [is_face_clear, hs, not_lt.mpr (le_of_lt hblur)]
  · intro client lbl w h x1 y1 x2 y2 d k score cd now hx1 hy1 hx2 hy2 hsc hblur hsz hcd
    have hclear : is_face_clear (some d) BLUR_THRESHOLD = true := by
      simp [is_face_clear, Nat.pos_iff_ne_zero.mp hsz, hblur]
    have hr : (save_unknown cd now (some d) k score).2 = true :=
      (save_unknown_snd_true_iff cd now (some d) k score).mpr
        ⟨hsc, cooldown_suppressed_none cd k now UNKNOWN_SAVE_COOLDOWN hcd, hclear⟩
    have hnot : ¬(x1 < MIN_FRAME_EDGE_DISTANCE ∨ y1 < MIN_FRAME_EDGE_DISTANCE ∨
        w - MIN_FRAME_EDGE_DISTANCE < x2 ∨ h - MIN_FRAME_EDGE_DISTANCE < y2) := by
      push_neg
      exact ⟨not_lt.mp (not_lt.mpr hx1), not_lt.mp (not_lt.mpr hy1),
        not_lt.mp (not_lt.mpr hx2), not_lt.mp (not_lt.mpr hy2)⟩
    simp only [unknown_branch_step]
    rw [if_neg hnot, if_pos hr, save_unknown_snd_true_fst cd now (some d) k score hr]

/-- C3 witness: a fully-inside sharp detection is saved and dispatched on
a fresh table, and the `x1 = 5` box on a 640-wide frame is rejected. -/
theorem c3_unknown_gate_witness :
    unknown_branch_step (none : Option (Store ℕ)) 0 640 480 100 100 200 200 (some ⟨1, 200⟩)
        (0 : ℕ) 1 emptyCD 5 = (updateCD emptyCD 0 5, true, true) ∧
    unknown_branch_step (none : Option (Store ℕ)) 0 640 480 5 100 200 200 (some ⟨1, 200⟩)
        (0 : ℕ) 1 emptyCD 5 = (emptyCD, false, false) :=
  ⟨(c3_unknown_gate ℕ ℕ).2.2.2.2 none 0 640 480 100 100 200 200 ⟨1, 200⟩ 0 1 emptyCD 5
      (by norm_num [MIN_FRAME_EDGE_DISTANCE]) (by norm_num [MIN_FRAME_EDGE_DISTANCE])
      (by norm_num [MIN_FRAME_EDGE_DISTANCE]) (by norm_num [MIN_FRAME_EDGE_DISTANCE])
      (by norm_num [MIN_DETECTION_SCORE]) (by norm_num [BLUR_THRESHOLD]) (by norm_num) rfl,
    (c3_unknown_gate ℕ ℕ).2.2.1 none 0 480 100 200 200 (some ⟨1, 200⟩) 0 1 emptyCD 5⟩

/-- C10 witness: a fresh identity at clock 11 (window 10) is dispatched. -/
theorem c10_default_timestamp_witness :
    (((known_branch_step (none : Option (Store ℕ)) emptyCD 11 0 0).2 = true) ↔
      KNOWN_LOG_COOLDOWN < (11 : ℚ)) ∧
    (KNOWN_LOG_COOLDOWN < (11 : ℚ) →
      known_branch_step (none : Option (Store ℕ)) emptyCD 11 0 0 =
        (updateCD emptyCD 0 11, true)) :=
  c10_default_timestamp ℕ none emptyCD 11 0 0 rfl

/-- C5: a failing (or absent) external store never alters the calling
pipeline step.  Precisely: (a) every dispatch makes at most one delivery
attempt (no retry); (b) a store error is caught and turned into a
diagnostic, with exactly one attempt and a normal return; (c) with no
store configured, no attempt is made and the dispatch still returns
normally; (d, e) the known and unknown branch steps compute the same new
state and the same decisions for any two store clients, failing or not. -/
theorem c5_dispatch_isolation (ν κ : Type) [DecidableEq ν] [DecidableEq κ] :
    (∀ (client : Option (Store ν)) (p : ν × ℝ × Bool), (sendEvent client p).attempts ≤ 1) ∧
    (∀ (store : Store ν) (p : ν × ℝ × Bool) (e : ℕ), store p = Except.error e →
      sendEvent (some store) p = ⟨1, false, some e⟩) ∧
    (∀ p : ν × ℝ × Bool, sendEvent (none : Option (Store ν)) p = ⟨0, false, none⟩) ∧
    (∀ (c1 c2 : Option (Store ν)) (cd : CDMap ν) (now : ℚ) (name : ν) (conf : ℝ),
      known_branch_step c1 cd now name conf = known_branch_step c2 cd now name conf) ∧
    (∀ (c1 c2 : Option (Store ν)) (lbl : ν) (w h x1 y1 x2 y2 : ℤ) (crop : Option ImgData)
        (k : κ) (score : ℚ) (cd : CDMap κ) (now : ℚ),
      unknown_branch_step c1 lbl w h x1 y1 x2 y2 crop k score cd now =
        unknown_branch_step c2 lbl w h x1 y1 x2 y2 crop k score cd now) := by
  refine ⟨?_, ?_, ?_, ?_, ?_⟩
  · intro client p
    cases client with
    | none => exact Nat.zero_le 1
    | some store =>
      simp only [sendEvent]
      cases store p with
      | ok u => exact le_refl 1
      | error e => exact le_refl 1
  · intro store p e h
    simp [sendEvent, h]
  · intro p
    rfl
  · intro c1 c2 cd now name conf
    rfl
  · intro c1 c2 lbl w h x1 y1 x2 y2 crop k score cd now
    rfl

/-- C5 witness: a store that always raises yields one attempt, a caught
diagnostic and a normal return, at a concrete payload. -/
theorem c5_dispatch_isolation_witness :
    sendEvent (some (fun _ => Except.error 7 : Store ℕ)) (0, 0, true) = ⟨1, false, some 7⟩ :=
  (c5_dispatch_isolation ℕ ℕ).2.1 (fun _ => Except.error 7) (0, 0, true) 7 rfl

/-! Helper lemmas about the identity registry. -/

theorem vecAdd_length (xs ys : List ℝ) (h : ys.length = xs.length) :
    (vecAdd xs ys).length = xs.length := by
  simp [vecAdd, h]

theorem vecAdd_getD (xs ys : List ℝ) (i : ℕ) (hi : i < xs.length)
    (h : ys.length = xs.length) :
    (vecAdd xs ys).getD i 0 = xs.getD i 0 + ys.getD i 0 := by
  have hlen : i < (vecAdd xs ys).length := by rw [vecAdd_length xs ys h]; exact hi
  have hiy : i < ys.length := by rw [h]; exact hi
  rw [List.getD_eq_getElem _ _ hlen, List.getD_eq_getElem _ _ hi, List.getD_eq_getElem _ _ hiy]
  simp only [vecAdd]
  rw [List.getElem_zipWith]

theorem foldl_vecAdd_spec (es : List (List ℝ)) :
    ∀ e : List ℝ, (∀ e' ∈ es, e'.length = e.length) →
      (es.foldl vecAdd e).length = e.length ∧
      ∀ i, i < e.length →
        (es.foldl vecAdd e).getD i 0 = e.getD i 0 + (es.map (fun v => v.getD i 0)).sum := by
  induction es with
  | nil => exact fun e _ => ⟨rfl, fun i _ => by simp⟩
  | cons a es ih =>
    intro e hlen
    have ha : a.length = e.length := hlen a (List.mem_cons_self a es)
    have hstep : (vecAdd e a).length = e.length := vecAdd_length e a ha
    have hrec := ih (vecAdd e a) (fun e' he' => by
      rw [hstep]; exact hlen e' (List.mem_cons_of_mem a he'))
    refine ⟨by rw [List.foldl_cons, hrec.1, hstep], fun i hi => ?_⟩
    rw [List.foldl_cons, hrec.2 i (by rw [hstep]; exact hi), vecAdd_getD e a i hi ha]
    simp only [List.map_cons, List.sum_cons]
    exact add_assoc _ _ _

theorem meanVec_cons_getD (e : List ℝ) (es : List (List ℝ))
    (hlen : ∀ e' ∈ e :: es, e'.length = e.length) (i : ℕ) (hi : i < e.length) :
    (meanVec (e :: es)).getD i 0 =
      ((e :: es).map (fun v => v.getD i 0)).sum / ((e :: es).length : ℝ) := by
  have hspec := foldl_vecAdd_spec es e (fun e' he' => hlen e' (List.mem_cons_of_mem e he'))
  have hzero : (0 : ℝ) / ((es.length : ℝ) + 1) = 0 := zero_div _
  simp only [meanVec]
  rw [← hzero, List.getD_map _ _ _, hspec.2 i hi]
  simp only [List.map_cons, List.sum_cons, List.length_cons]
  push_cast
  ring_nf

theorem meanVec_single (e : List ℝ) : meanVec [e] = e := by
  simp [meanVec]

/-- C4: an identity with at least one usable enrollment embedding is
stored in the registry with the component-wise arithmetic mean of its
collected embeddings as reference vector (`meanVec` agrees pointwise
with sum-divided-by-count); an identity all of whose enrollment images
yield no usable embedding is omitted from the registry with no error;
and the toy instance: embeddings `[1,0]` and `[0,1]` average to
`[0.5, 0.5]`. -/
theorem c4_registry_mean (ν : Type) :
    (∀ (src : List (ν × List (Option (List (List ℝ))))) (n : ν)
        (imgs : List (Option (List (List ℝ)))),
        (n, imgs) ∈ src → collectEmbs imgs ≠ [] →
        (n, meanVec (collectEmbs imgs)) ∈ load_known_embeddings src) ∧
    (∀ (e : List ℝ) (es : List (List ℝ)),
        (∀ e' ∈ e :: es, e'.length = e.length) →
        ∀ i, i < e.length →
          (meanVec (e :: es)).getD i 0 =
            ((e :: es).map (fun v => v.getD i 0)).sum / ((e :: es).length : ℝ)) ∧
    (∀ (src : List (ν × List (Option (List (List ℝ))))) (n : ν),
        (∀ imgs, (n, imgs) ∈ src → collectEmbs imgs = []) →
        ∀ v, (n, v) ∉ load_known_embeddings src) ∧
    meanVec [[(1 : ℝ), 0], [0, 1]] = [1 / 2, 1 / 2] := by
  refine ⟨?_, meanVec_cons_getD, ?_, ?_⟩
  · intro src n imgs hmem hne
    refine List.mem_filterMap.mpr ⟨(n, imgs), hmem, ?_⟩
    simp only [load_known_embeddings]
    rw [if_neg (by simpa [List.isEmpty_iff] using hne)]
  · intro src n hall v hv
    simp only [load_known_embeddings] at hv
    rcases List.mem_filterMap.mp hv with ⟨⟨n', imgs'⟩, hmem, heq⟩
    by_cases he : (collectEmbs imgs').isEmpty
    · rw [if_pos he] at heq
      exact Option.noConfusion heq
    · rw [if_neg he] at heq
      have heq' : ((n', imgs').1, meanVec (collectEmbs (n', imgs').2)) = (n, v) :=
        Option.some.inj heq
      have hn' : n' = n := congrArg Prod.fst heq'
      rw [hn'] at hmem
      exact he (by simp [List.isEmpty_iff, hall imgs' hmem])
  · norm_num [meanVec, vecAdd]

/-- C4 witness: the membership and pointwise-mean parts of the theorem
applied to a concrete two-image enrollment for one identity. -/
theorem c4_registry_mean_witness :
    ((0 : ℕ), meanVec (collectEmbs [some [[(1 : ℝ), 0]], some [[0, 1]]])) ∈
      load_known_embeddings [((0 : ℕ), [some [[(1 : ℝ), 0]], some [[0, 1]]])] ∧
    (meanVec [[(1 : ℝ), 0], [0, 1]]).getD 0 0 =
      (([[(1 : ℝ), 0], [0, 1]].map (fun v => v.getD 0 0)).sum /
        (([[(1 : ℝ), 0], [0, 1]].length : ℕ) : ℝ)) :=
  ⟨(c4_registry_mean ℕ).1 [((0 : ℕ), [some [[(1 : ℝ), 0]], some [[0, 1]]])] 0
      [some [[(1 : ℝ), 0]], some [[0, 1]]] (List.mem_cons_self _ _) (by simp [collectEmbs]),
    (c4_registry_mean ℕ).2.1 [(1 : ℝ), 0] [[0, 1]]
      (by
        intro e' he'
        rcases List.mem_cons.mp he' with rfl | he'
        · rfl
        · rcases List.mem_cons.mp he' with rfl | he'
          · rfl
          · exact absurd he' (List.not_mem_nil _)) 0 (by norm_num)⟩

/-- C9: when building the registry, an enrollment image contributes only
the embedding of its first detected face: extra detections in the same
image are ignored, each image with detections contributes exactly its
head embedding, and a one-identity, one-image source with several faces
registers just the first face's embedding. -/
theorem c9_first_face (pre post : List (Option (List (List ℝ)))) (e : List ℝ)
    (ds : List (List ℝ)) :
    collectEmbs (pre ++ some (e :: ds) :: post) = collectEmbs pre ++ e :: collectEmbs post ∧
    collectEmbs (pre ++ some (e :: ds) :: post) = collectEmbs (pre ++ some [e] :: post) ∧
    ∀ (ν : Type) (n : ν),
      load_known_embeddings [(n, [some (e :: ds)])] = [(n, e)] := by
  refine ⟨?_, ?_, ?_⟩
  · simp [collectEmbs, List.filterMap_append]
  · simp [collectEmbs, List.filterMap_append]
  · intro ν n
    simp [load_known_embeddings, collectEmbs, meanVec_single]

/-! Helper lemmas about the similarity matcher. -/

theorem sumSq_nonneg (l : List ℝ) : 0 ≤ sumSq l := by
  induction l with
  | nil => exact le_refl 0
  | cons x xs ih =>
    simp only [sumSq]
    exact add_nonneg (sq_nonneg x) ih

theorem EPS_pos : 0 < EPS := by norm_num [EPS]

theorem two_mul_le_of_sq_le (x y a b d : ℝ) (ha : 0 ≤ a) (hb : 0 ≤ b)
    (hd : d ^ 2 ≤ a * b) : 2 * (x * y) * d ≤ x ^ 2 * b + y ^ 2 * a := by
  have hS : 0 ≤ x ^ 2 * b + y ^ 2 * a := by positivity
  have h2 : (2 * (x * y) * d) ^ 2 ≤ (x ^ 2 * b + y ^ 2 * a) ^ 2 := by
    nlinarith [sq_nonneg (x ^ 2 * b - y ^ 2 * a),
      mul_nonneg (mul_nonneg (sq_nonneg x) (sq_nonneg y)) (sub_nonneg.mpr hd)]
  exact le_of_pow_le_pow_left₀ two_ne_zero hS h2

theorem dotL_sq_le (xs : List ℝ) : ∀ ys : List ℝ, (dotL xs ys) ^ 2 ≤ sumSq xs * sumSq ys := by
  induction xs with
  | nil =>
    intro ys
    simp [dotL, sumSq]
  | cons x xs ih =>
    intro ys
    cases ys with
    | nil => simp [dotL, sumSq]
    | cons y ys =>
      have h1 := ih ys
      have h2 := two_mul_le_of_sq_le x y (sumSq xs) (sumSq ys) (dotL xs ys)
        (sumSq_nonneg xs) (sumSq_nonneg ys) h1
      simp only [dotL, sumSq]
      nlinarith [h1, h2]

theorem dotL_self (xs : List ℝ) : dotL xs xs = sumSq xs := by
  induction xs with
  | nil => rfl
  | cons x xs ih =>
    simp only [dotL, sumSq]
    rw [ih, sq]

theorem normL_mul_self (l : List ℝ) : normL l * normL l = sumSq l :=
  Real.mul_self_sqrt (sumSq_nonneg l)

theorem abs_dotL_le (r q : List ℝ) : |dotL r q| ≤ normL r * normL q :=
  calc |dotL r q| = Real.sqrt ((dotL r q) ^ 2) := (Real.sqrt_sq_eq_abs _).symm
    _ ≤ Real.sqrt (sumSq r * sumSq q) := Real.sqrt_le_sqrt (dotL_sq_le r q)
    _ = normL r * normL q := Real.sqrt_mul (sumSq_nonneg r) (sumSq q)

theorem sim_denom_pos (r q : List ℝ) : 0 < normL r * normL q + EPS :=
  add_pos_of_nonneg_of_pos (mul_nonneg (Real.sqrt_nonneg _) (Real.sqrt_nonneg _)) EPS_pos

theorem sim_bound (r q : List ℝ) :
    -1 ≤ dotL r q / (normL r * normL q + EPS) ∧
      dotL r q / (normL r * normL q + EPS) ≤ 1 := by
  have hD := sim_denom_pos r q
  have habs : |dotL r q / (normL r * normL q + EPS)| ≤ 1 := by
    rw [abs_div, abs_of_pos hD, div_le_one hD]
    exact le_trans (abs_dotL_le r q) (le_add_of_nonneg_right (le_of_lt EPS_pos))
  exact abs_le.mp habs

theorem argmaxL_lt_length (l : List ℝ) (hl : l ≠ []) : argmaxL l < l.length := by
  induction l with
  | nil => exact absurd rfl hl
  | cons x xs ih =>
    cases xs with
    | nil => simp [argmaxL]
    | cons y ys =>
      simp only [argmaxL]
      split_ifs with h
      · exact Nat.succ_lt_succ (ih (by simp))
      · simp

theorem getD_le_argmax (l : List ℝ) : ∀ j, j < l.length →
    l.getD j 0 ≤ l.getD (argmaxL l) 0 := by
  induction l with
  | nil =>
    intro j hj
    simp at hj
  | cons x xs ih =>
    intro j hj
    cases xs with
    | nil =>
      have hj0 : j = 0 := by
        simp only [List.length_cons, List.length_nil] at hj
        omega
      subst hj0
      simp [argmaxL]
    | cons y ys =>
      simp only [argmaxL]
      split_ifs with h
      · rw [List.getD_cons_succ]
        cases j with
        | zero =>
          rw [List.getD_cons_zero]
          exact le_of_lt h
        | succ k =>
          rw [List.getD_cons_succ]
          exact ih k (by simpa using hj)
      · rw [List.getD_cons_zero]
        cases j with
        | zero => rw [List.getD_cons_zero]
        | succ k =>
          rw [List.getD_cons_succ]
          exact le_trans (ih k (by simpa using hj)) (not_lt.mp h)

theorem getD_lt_argmax (l : List ℝ) : ∀ j, j < argmaxL l →
    l.getD j 0 < l.getD (argmaxL l) 0 := by
  induction l with
  | nil =>
    intro j hj
    simp [argmaxL] at hj
  | cons x xs ih =>
    intro j hj
    cases xs with
    | nil => simp [argmaxL] at hj
    | cons y ys =>
      by_cases h : x < (y :: ys).getD (argmaxL (y :: ys)) 0
      · rw [argmaxL, if_pos h] at hj ⊢
        rw [List.getD_cons_succ]
        cases j with
        | zero =>
          rw [List.getD_cons_zero]
          exact h
        | succ k =>
          rw [List.getD_cons_succ]
          exact ih k (Nat.lt_of_succ_lt_succ hj)
      · rw [argmaxL, if_neg h] at hj
        exact absurd hj (Nat.not_lt_zero j)

theorem normL_single_one : normL [(1 : ℝ)] = 1 := by
  have h : sumSq [(1 : ℝ)] = 1 := by norm_num [sumSq]
  rw [normL, h, Real.sqrt_one]

theorem normL_pair_one_zero : normL [(1 : ℝ), 0] = 1 := by
  have h : sumSq [(1 : ℝ), 0] = 1 := by norm_num [sumSq]
  rw [normL, h, Real.sqrt_one]

/-- C2: the matcher returns `(None, 0.0)` on an empty registry or a
zero-norm query, never an error; and on a non-empty registry with a
nonzero-norm query, the returned similarity lies in `[-1, 1]`. -/
theorem c2_match_total (embs : List (List ℝ)) (q : List ℝ) :
    ((embs = [] ∨ normL q = 0) → cosine_sim_vectorized embs q = (none, 0)) ∧
    (embs ≠ [] → normL q ≠ 0 →
      -1 ≤ (cosine_sim_vectorized embs q).2 ∧ (cosine_sim_vectorized embs q).2 ≤ 1) := by
  constructor
  · rintro (rfl | hq)
    · rfl
    · by_cases he : embs.isEmpty <;> simp [cosine_sim_vectorized, hq, he]
  · intro hne hq
    have hemp : embs.isEmpty = false := by simpa [List.isEmpty_iff] using hne
    have hres : (cosine_sim_vectorized embs q).2 =
        (simsL embs q).getD (argmaxL (simsL embs q)) 0 := by
      simp [cosine_sim_vectorized, hemp, hq]
    have hnil : simsL embs q ≠ [] := by simpa [simsL] using hne
    have hlen : argmaxL (simsL embs q) < (simsL embs q).length := argmaxL_lt_length _ hnil
    rw [hres, List.getD_eq_getElem _ _ hlen]
    have hmem : (simsL embs q)[argmaxL (simsL embs q)] ∈ simsL embs q := List.getElem_mem hlen
    simp only [simsL] at hmem ⊢
    rcases List.mem_map.mp hmem with ⟨r, _, hr⟩
    rw [← hr]
    exact sim_bound r q

/-- C2 witness: the theorem applied to an empty registry and to a
two-identity registry with the unit query `[1]`. -/
theorem c2_match_total_witness :
    cosine_sim_vectorized ([] : List (List ℝ)) [1] = (none, 0) ∧
    (-1 ≤ (cosine_sim_vectorized [[(1 : ℝ)], [2]] [1]).2 ∧
      (cosine_sim_vectorized [[(1 : ℝ)], [2]] [1]).2 ≤ 1) :=
  ⟨(c2_match_total [] [1]).1 (Or.inl rfl),
    (c2_match_total [[(1 : ℝ)], [2]] [1]).2 (by simp)
      (by rw [normL_single_one]; exact one_ne_zero)⟩

/-- C7: on a non-empty registry with a nonzero-norm query the matcher
returns the argmax index of the similarity row and its value; the index
is in range, its similarity is a maximum, and every strictly earlier
index has strictly smaller similarity (first index on exact ties). -/
theorem c7_argmax_first (embs : List (List ℝ)) (q : List ℝ) (hne : embs ≠ [])
    (hq : normL q ≠ 0) :
    cosine_sim_vectorized embs q =
      (some (argmaxL (simsL embs q)), (simsL embs q).getD (argmaxL (simsL embs q)) 0) ∧
    argmaxL (simsL embs q) < (simsL embs q).length ∧
    (∀ j, j < (simsL embs q).length →
      (simsL embs q).getD j 0 ≤ (simsL embs q).getD (argmaxL (simsL embs q)) 0) ∧
    (∀ j, j < argmaxL (simsL embs q) →
      (simsL embs q).getD j 0 < (simsL embs q).getD (argmaxL (simsL embs q)) 0) := by
  have hemp : embs.isEmpty = false := by simpa [List.isEmpty_iff] using hne
  have hnil : simsL embs q ≠ [] := by simpa [simsL] using hne
  exact ⟨by simp [cosine_sim_vectorized, hemp, hq], argmaxL_lt_length _ hnil,
    getD_le_argmax _, getD_lt_argmax _⟩

/-- C7 witness: the theorem applied to a concrete two-row registry. -/
theorem c7_argmax_first_witness :
    cosine_sim_vectorized [[(1 : ℝ)], [2]] [1] =
      (some (argmaxL (simsL [[(1 : ℝ)], [2]] [1])),
        (simsL [[(1 : ℝ)], [2]] [1]).getD (argmaxL (simsL [[(1 : ℝ)], [2]] [1])) 0) :=
  (c7_argmax_first [[(1 : ℝ)], [2]] [1] (by simp)
    (by rw [normL_single_one]; exact one_ne_zero)).1

/-- C6 (amended): with one enrolled identity whose reference embedding is
`E`, a query exactly equal to `E` yields the match index 0 with
similarity `‖E‖² / (‖E‖² + 1e-8)` — strictly less than 1, not exactly
1.0 — and that similarity clears the 0.45 acceptance threshold whenever
`‖E‖² ≥ 1e-8`, so the detection is accepted as a known match. -/
theorem c6_exact_query_match (E : List ℝ) (hE : EPS ≤ sumSq E) :
    cosine_sim_vectorized [E] E = (some 0, sumSq E / (sumSq E + EPS)) ∧
    SIM_THRESHOLD ≤ sumSq E / (sumSq E + EPS) ∧
    sumSq E / (sumSq E + EPS) < 1 := by
  have hpos : 0 < sumSq E := lt_of_lt_of_le EPS_pos hE
  have hD : 0 < sumSq E + EPS := add_pos hpos EPS_pos
  have hq : normL E ≠ 0 := by
    rw [normL]
    exact ne_of_gt (Real.sqrt_pos.mpr hpos)
  refine ⟨?_, ?_, ?_⟩
  · simp [cosine_sim_vectorized, simsL, argmaxL, hq, dotL_self, normL_mul_self]
  · simp only [SIM_THRESHOLD]
    rw [le_div_iff₀ hD]
    nlinarith [hE, EPS_pos, hpos]
  · rw [div_lt_one hD]
    linarith [EPS_pos]

/-- C6 witness: the theorem applied to the reference embedding `[1, 0]`,
whose squared norm 1 clears the `1e-8` bound. -/
theorem c6_exact_query_match_witness :
    cosine_sim_vectorized [[(1 : ℝ), 0]] [1, 0] =
      (some 0, sumSq [(1 : ℝ), 0] / (sumSq [(1 : ℝ), 0] + EPS)) ∧
    SIM_THRESHOLD ≤ sumSq [(1 : ℝ), 0] / (sumSq [(1 : ℝ), 0] + EPS) ∧
    sumSq [(1 : ℝ), 0] / (sumSq [(1 : ℝ), 0] + EPS) < 1 :=
  c6_exact_query_match [(1 : ℝ), 0] (by norm_num [sumSq, EPS])

/-- C6 counterexample to the claim as stated: with reference embedding
`[1, 0]` and the query equal to it, the returned similarity is
`1 / (1 + 1e-8)`, which is not exactly 1.0. -/
theorem c6_exact_query_match_cex :
    (cosine_sim_vectorized [[(1 : ℝ), 0]] [1, 0]).2 ≠ 1 := by
  have hdot : dotL [(1 : ℝ), 0] [1, 0] = 1 := by norm_num [dotL]
  have hres : cosine_sim_vectorized [[(1 : ℝ), 0]] [1, 0] = (some 0, 1 / (1 + EPS)) := by
    simp [cosine_sim_vectorized, simsL, argmaxL, normL_pair_one_zero, hdot]
  rw [hres]
  have h1 : (1 : ℝ) / (1 + EPS) < 1 := by
    rw [div_lt_one (by linarith [EPS_pos])]
    linarith [EPS_pos]
  exact ne_of_lt h1

end FaceRec
